import Mathlib

/-!
Verification of the plate-text candidate extraction and scoring core of the
PlacaInador repository, shallowly embedded from
`src/plate-detector/server/api/analyze-plate-enhanced.post.js` (primary
validator, OCR aggregation, request-level selection) and the variant
validator in `src/plate-detector/app/components/ProcessedImages.vue`.

Strings are modelled as `List Char`.  JavaScript regular-expression
matching is modelled by a small backtracking engine (`RE`, `reMatches`)
whose alternative order reproduces the greedy, leftmost-first semantics of
the JS engine for the dash-optional / counted-repetition patterns used by
the source.  `Array.prototype.sort`, which ECMAScript requires to be
stable, is modelled as a stable insertion sort driven by the source's
comparator through the decision `cmp a b ≤ 0`.  JS numbers appearing in
the confidence arithmetic are modelled as rationals.
-/

/-- The character class `[A-Z]`. -/
def isUpperAZ (c : Char) : Bool := decide ('A' ≤ c) && decide (c ≤ 'Z')

/-- The character class `[0-9]` (regex `\d`). -/
def isDigit09 (c : Char) : Bool := decide ('0' ≤ c) && decide (c ≤ '9')

/-- The class `\s` of JS whitespace, restricted to its ASCII members. -/
def jsWhitespace (c : Char) : Bool :=
  c = ' ' || c = '\t' || c = '\n' || c = '\r' || c = '\x0b' || c = '\x0c'

/-- Characters kept by the first cleaning step
`.replace(/[^A-Z0-9-\s]/g, '')`: the replace deletes every character NOT
in `[A-Z0-9-\s]`, so the survivors are exactly this class. -/
def keepChar (c : Char) : Bool :=
  isUpperAZ c || isDigit09 c || c = '-' || jsWhitespace c

/-- `String.prototype.toUpperCase` on one character, ASCII range. -/
def toUpperChar (c : Char) : Char :=
  if 'a' ≤ c ∧ c ≤ 'z' then Char.ofNat (c.toNat - 32) else c

/-- Case-insensitive prefix test: does `pat` match the beginning of `s`
up to `toUpperCase` on both sides? -/
def isPrefixCI : List Char → List Char → Bool
  | [], _ => true
  | _ :: _, [] => false
  | p :: ps, c :: cs => toUpperChar p = toUpperChar c && isPrefixCI ps cs

/-- One pass of `s.replace(pat, '')` with a case-insensitive global flag
(`/gi`): scan left to right, delete each non-overlapping occurrence of
`pat`, and resume scanning after the deleted occurrence (the output is
not re-scanned, matching the single-pass behaviour of JS `replace`). -/
def stripCIGo (pat : List Char) : Nat → List Char → List Char
  | 0, s => s
  | _, [] => []
  | fuel + 1, c :: rest =>
    if isPrefixCI pat (c :: rest) && !pat.isEmpty then
      stripCIGo pat fuel (rest.drop (pat.length - 1))
    else
      c :: stripCIGo pat fuel rest

/-- `s.replace(pat, '')` itself; every scan step consumes at least one
character, so `s.length` steps of fuel always suffice. -/
def stripCI (pat : List Char) (s : List Char) : List Char :=
  stripCIGo pat s.length s

/-- The cleaning chain of `validateMexicanPlate` in the server API:
`text.replace(/[^A-Z0-9-\s]/g, '').replace(/platesmania/gi, '')
.replace(/www\./gi, '').replace(/\.com/gi, '').replace(/\s+/g, '')
.toUpperCase()`. -/
def cleanText (text : List Char) : List Char :=
  ((stripCI (".com".data)
      (stripCI ("www.".data)
        (stripCI ("platesmania".data)
          (text.filter keepChar)))).filter (fun c => !jsWhitespace c)).map
    toUpperChar

/-- Regular-expression abstract syntax: exactly the constructs used by the
source's plate patterns (single-character classes, greedy option,
concatenation).  Counted repetitions are desugared below. -/
inductive RE where
  | eps : RE
  | cls : (Char → Bool) → RE
  | opt : RE → RE
  | seq : RE → RE → RE

/-- All ways `r` can match a prefix of `s`, as `(consumed, rest)` pairs,
listed in the JS backtracking preference order: greedy alternatives
first.  The JS engine returns the first element. -/
def reMatches : RE → List Char → List (List Char × List Char)
  | .eps, s => [([], s)]
  | .cls _, [] => []
  | .cls p, c :: cs => if p c then [([c], cs)] else []
  | .opt r, s => reMatches r s ++ [([], s)]
  | .seq r₁ r₂, s =>
    (reMatches r₁ s).flatMap fun pr =>
      (reMatches r₂ pr.2).map fun qr => (pr.1 ++ qr.1, qr.2)

/-- `r{n}`: exactly `n` copies of `r`. -/
def reN (r : RE) : Nat → RE
  | 0 => .eps
  | n + 1 => .seq r (reN r n)

/-- `r{0,n}` greedy: up to `n` copies, preferring more. -/
def reUpTo (r : RE) : Nat → RE
  | 0 => .eps
  | n + 1 => .opt (.seq r (reUpTo r n))

/-- `r{lo,hi}` greedy. -/
def reRange (r : RE) (lo hi : Nat) : RE := .seq (reN r lo) (reUpTo r (hi - lo))

/-- Concatenation of a pattern list into one `RE`. -/
def seqs (l : List RE) : RE := l.foldr .seq .eps

/-- The class `[A-Z]` as a pattern atom. -/
def reL : RE := .cls isUpperAZ

/-- The class `\d` as a pattern atom. -/
def reD : RE := .cls isDigit09

/-- The optional dash `-?`. -/
def reDashOpt : RE := .opt (.cls (fun c => c = '-'))

/-- `/^...$/.test(m)`: does some alternative of `r` consume all of `m`? -/
def anchoredTest (r : RE) (m : List Char) : Bool :=
  (reMatches r m).any fun pr => pr.2.isEmpty

/-- Scanning loop of `String.prototype.match` with a global regex: find
successive leftmost non-overlapping matches; an empty match advances the
scan position by one (fuel bounds the number of scan steps). -/
def jsMatchGo (r : RE) : Nat → List Char → List (List Char)
  | 0, _ => []
  | fuel + 1, s =>
    match reMatches r s with
    | [] =>
      match s with
      | [] => []
      | _ :: tail => jsMatchGo r fuel tail
    | (m, rest) :: _ =>
      match m with
      | [] =>
        match s with
        | [] => [[]]
        | _ :: tail => [] :: jsMatchGo r fuel tail
      | _ => m :: jsMatchGo r fuel rest

/-- `s.match(r)` for a global regex `r`: the list of matched substrings,
left to right.  `s.length + 1` scan steps always suffice. -/
def jsMatchAll (r : RE) (s : List Char) : List (List Char) :=
  jsMatchGo r (s.length + 1) s

/-- `MEXICAN_PLATE_PATTERNS` of the server API, in source order:
`[A-Z]{3}-?\d{2}-?\d{2}`, `[A-Z]{3}-?\d{3}-?[A-Z]?`, `[A-Z]{3}-?\d{3}-?`,
`[A-Z]{3}-?\d{4}`, `[A-Z]{3}\d{4}`, `[A-Z]{3}\d{2}[A-Z]{2}`,
`[A-Z]{2}-?\d{3}-?[A-Z]{2}`, `\d{2}-?[A-Z]{2}-?\d{3}`,
`[A-Z]{2,3}\d{2,4}[A-Z]?`. -/
def MEXICAN_PLATE_PATTERNS : List RE :=
  [ seqs [reN reL 3, reDashOpt, reN reD 2, reDashOpt, reN reD 2]
  , seqs [reN reL 3, reDashOpt, reN reD 3, reDashOpt, .opt reL]
  , seqs [reN reL 3, reDashOpt, reN reD 3, reDashOpt]
  , seqs [reN reL 3, reDashOpt, reN reD 4]
  , seqs [reN reL 3, reN reD 4]
  , seqs [reN reL 3, reN reD 2, reN reL 2]
  , seqs [reN reL 2, reDashOpt, reN reD 3, reDashOpt, reN reL 2]
  , seqs [reN reD 2, reDashOpt, reN reL 2, reDashOpt, reN reD 3]
  , seqs [reRange reL 2 3, reRange reD 2 4, .opt reL] ]

/-- Scoring check `/^[A-Z]{3}-?\d{2}-?\d{2}$/`. -/
def scoreRe100 : RE := seqs [reN reL 3, reDashOpt, reN reD 2, reDashOpt, reN reD 2]

/-- Scoring check `/^[A-Z]{3}-?\d{3}-?[A-Z]$/`. -/
def scoreRe90 : RE := seqs [reN reL 3, reDashOpt, reN reD 3, reDashOpt, reL]

/-- Scoring check `/^[A-Z]{3}-?\d{3}-?$/`. -/
def scoreRe85a : RE := seqs [reN reL 3, reDashOpt, reN reD 3, reDashOpt]

/-- Scoring check `/^[A-Z]{3}-?\d{4}$/`. -/
def scoreRe80 : RE := seqs [reN reL 3, reDashOpt, reN reD 4]

/-- Scoring check `/^[A-Z]{2}-?\d{3}-?[A-Z]{2}$/`. -/
def scoreRe85b : RE := seqs [reN reL 2, reDashOpt, reN reD 3, reDashOpt, reN reL 2]

/-- Scoring check `/^[A-Z]{2,3}\d{2,4}[A-Z]?$/`. -/
def scoreRe60 : RE := seqs [reRange reL 2 3, reRange reD 2 4, .opt reL]

/-- Does `t` occur as a contiguous substring of the second list?
(Computable form of `/t/.test(m)` for a literal `t`.) -/
def containsSeq (t : List Char) : List Char → Bool
  | [] => t.isEmpty
  | c :: cs => t.isPrefixOf (c :: cs) || containsSeq t cs

/-- The digit-triple penalty test `/000|111|222|333|444|555|666|777|888|999/`. -/
def hasDigitTriple (m : List Char) : Bool :=
  (["000", "111", "222", "333", "444", "555", "666", "777", "888", "999"].map
    String.data).any fun t => containsSeq t m

/-- The letter-triple penalty test `/AAA|BBB|CCC/`. -/
def hasLetterTriple (m : List Char) : Bool :=
  (["AAA", "BBB", "CCC"].map String.data).any fun t => containsSeq t m

/-- The score assigned to one accepted match in the server validator:
base from the first matching exact-format check in source order, then
`+10` for a dash, `-20` for a repeated digit triple, `-15` for a repeated
letter triple. -/
def scoreMatch (m : List Char) : Int :=
  (if anchoredTest scoreRe100 m then 100
   else if anchoredTest scoreRe90 m then 90
   else if anchoredTest scoreRe85a m then 85
   else if anchoredTest scoreRe80 m then 80
   else if anchoredTest scoreRe85b m then 85
   else if anchoredTest scoreRe60 m then 60
   else 50)
  + (if m.contains '-' then 10 else 0)
  - (if hasDigitTriple m then 20 else 0)
  - (if hasLetterTriple m then 15 else 0)

/-- A scored plate candidate, `{ plate: match, score }`. -/
structure Candidate where
  plate : List Char
  score : Int
deriving DecidableEq, Repr

/-- All candidates pushed by the pattern loop of the server validator:
for each pattern in order, each global match of length in `[6,10]`
becomes `{ plate: match, score: scoreMatch match }`. -/
def candidatesOf (clean : List Char) : List Candidate :=
  MEXICAN_PLATE_PATTERNS.flatMap fun pat =>
    ((jsMatchAll pat clean).filter fun m =>
        decide (6 ≤ m.length) && decide (m.length ≤ 10)).map
      fun m => ⟨m, scoreMatch m⟩

/-- Stable insertion into a sorted list: `a` goes before the first `b`
with `le a b`.  `le a b` stands for `cmp(a,b) ≤ 0` of the JS comparator. -/
def insertBy (le : α → α → Bool) (a : α) : List α → List α
  | [] => [a]
  | b :: l => if le a b then a :: b :: l else b :: insertBy le a l

/-- Stable insertion sort: the model of ECMAScript's (stable)
`Array.prototype.sort` under comparator decision `le`. -/
def jsSortBy (le : α → α → Bool) : List α → List α
  | [] => []
  | x :: xs => insertBy le x (jsSortBy le xs)

/-- Decision of the candidate comparator `(a, b) => b.score - a.score`:
`a` may stay before `b` iff `b.score - a.score ≤ 0`. -/
def scoreLe (a b : Candidate) : Bool := b.score - a.score ≤ 0

/-- `validateMexicanPlate(text)` of the server API: `null` for short
input, otherwise the plate of the top-scoring candidate of the cleaned
text, or `null` when no candidate was produced. -/
def validateMexicanPlate (text : List Char) : Option (List Char) :=
  if text.length < 6 then none
  else
    match jsSortBy scoreLe (candidatesOf (cleanText text)) with
    | c :: _ => some c.plate
    | [] => none

/-- The sorted candidate list the server validator selects from (empty
when the input fails the minimum-length guard, in which case the pattern
loop is never reached). -/
def rankedCandidates (text : List Char) : List Candidate :=
  if text.length < 6 then []
  else jsSortBy scoreLe (candidatesOf (cleanText text))

/-- The cleaning chain of the `validateMexicanPlate` variant in
`ProcessedImages.vue`, whose denylist additionally strips `major`,
`katz`, `guerrero`. -/
def cleanTextVue (text : List Char) : List Char :=
  ((stripCI ("guerrero".data)
      (stripCI ("katz".data)
        (stripCI ("major".data)
          (stripCI (".com".data)
            (stripCI ("www.".data)
              (stripCI ("platesmania".data)
                (text.filter keepChar))))))).filter
    (fun c => !jsWhitespace c)).map toUpperChar

/-- The pattern list of the `ProcessedImages.vue` validator: the server's
patterns 1-6 and 9 (it lacks the federal and commercial patterns). -/
def VUE_PLATE_PATTERNS : List RE :=
  [ seqs [reN reL 3, reDashOpt, reN reD 2, reDashOpt, reN reD 2]
  , seqs [reN reL 3, reDashOpt, reN reD 3, reDashOpt, .opt reL]
  , seqs [reN reL 3, reDashOpt, reN reD 3, reDashOpt]
  , seqs [reN reL 3, reDashOpt, reN reD 4]
  , seqs [reN reL 3, reN reD 4]
  , seqs [reN reL 3, reN reD 2, reN reL 2]
  , seqs [reRange reL 2 3, reRange reD 2 4, .opt reL] ]

/-- The score of one accepted match in the `ProcessedImages.vue`
validator: bases 100/90/85/50 plus the dash bonus, no triple penalties. -/
def scoreMatchVue (m : List Char) : Int :=
  (if anchoredTest scoreRe100 m then 100
   else if anchoredTest scoreRe90 m then 90
   else if anchoredTest scoreRe85a m then 85
   else 50)
  + (if m.contains '-' then 10 else 0)

/-- The candidate list of the `ProcessedImages.vue` validator: its length
window is `[5,10]`. -/
def candidatesOfVue (clean : List Char) : List Candidate :=
  VUE_PLATE_PATTERNS.flatMap fun pat =>
    ((jsMatchAll pat clean).filter fun m =>
        decide (5 ≤ m.length) && decide (m.length ≤ 10)).map
      fun m => ⟨m, scoreMatchVue m⟩

/-- `validateMexicanPlate(text)` of `ProcessedImages.vue`: minimum raw
length 5, window `[5,10]`. -/
def validateMexicanPlateVue (text : List Char) : Option (List Char) :=
  if text.length < 5 then none
  else
    match jsSortBy scoreLe (candidatesOfVue (cleanTextVue text)) with
    | c :: _ => some c.plate
    | [] => none

/-- One Tesseract observation consumed by `detectPlateWithOCR`: the raw
recognised text, its confidence on the 0-100 scale, and the enhancement
variant name (`enfocada`, `alto contraste`, `realce de bordes`,
`escalada`). -/
structure OcrReading where
  text : List Char
  confidence : ℚ
  source : List Char
deriving DecidableEq, Repr

/-- One element of `ocrResults` in `detectPlateWithOCR`: pushed when the
observation's text validates, with confidence rescaled to `[0,1]`. -/
structure OcrResult where
  plateText : List Char
  confidence : ℚ
  rawText : List Char
  source : List Char
deriving DecidableEq, Repr

/-- The `ocrResults` accumulation loop of `detectPlateWithOCR`: an
observation contributes iff its text validates. -/
def collectOcrResults (readings : List OcrReading) : List OcrResult :=
  readings.filterMap fun r =>
    (validateMexicanPlate r.text).map fun p =>
      ⟨p, r.confidence / 100, r.text, r.source⟩

/-- The comparator of `ocrResults.sort`: near-ties (confidence difference
below `0.1`) are decided by whether the FIRST argument is the `enfocada`
variant, otherwise by confidence descending. -/
def ocrCmp (a b : OcrResult) : ℚ :=
  if |a.confidence - b.confidence| < 1 / 10 then
    (if a.source = "enfocada".data then -1 else 1)
  else b.confidence - a.confidence

/-- Decision `ocrCmp a b ≤ 0` driving the stable sort model. -/
def ocrLe (a b : OcrResult) : Bool := ocrCmp a b ≤ 0

/-- The value returned by `detectPlateWithOCR` (fields of the JS result
object; `allCandidates` maps the sorted results). -/
structure PlateDetection where
  hasPlate : Bool
  plateText : Option (List Char)
  confidence : ℚ
  processingMethod : Option (List Char)
  allCandidates : List (List Char × ℚ)
deriving DecidableEq, Repr

/-- The no-plate result object (also the handler's final fallback
literal, whose omitted fields are modelled as `none`/`0`/`[]`). -/
def noPlateDetection : PlateDetection := ⟨false, none, 0, none, []⟩

/-- The aggregation tail of `detectPlateWithOCR`: sort `ocrResults` with
`ocrCmp`, return the head as best result, or the no-plate object. -/
def detectPlateWithOCR (readings : List OcrReading) : PlateDetection :=
  match jsSortBy ocrLe (collectOcrResults readings) with
  | [] => noPlateDetection
  | best :: rest =>
    ⟨true, some best.plateText, best.confidence, some best.source,
     (best :: rest).map fun r => (r.plateText, r.confidence)⟩

/-- The best-result selection of `detectPlateWithOCR` in isolation: the
head of the comparator-sorted result list. -/
def pickBest (results : List OcrResult) : Option OcrResult :=
  (jsSortBy ocrLe results).head?

/-- Predicate of the handler's first `find`:
`result && result.hasPlate && result.confidence > 0.1`. -/
def goodResult : Option PlateDetection → Bool
  | some d => d.hasPlate && decide ((1 : ℚ) / 10 < d.confidence)
  | none => false

/-- Predicate of the handler's second `find`: `result && result.hasPlate`. -/
def hasPlateResult : Option PlateDetection → Bool
  | some d => d.hasPlate
  | none => false

/-- JS `x || y` over possibly-null detection results. -/
def jsOrOpt (x y : Option PlateDetection) : Option PlateDetection :=
  match x with
  | some v => some v
  | none => y

/-- The handler's selection over `plateResults` (a list of
possibly-null detection results):
`find(good) || find(hasPlate) || plateResults[1] || plateResults[0] ||
{ hasPlate: false, plateText: null, confidence: 0 }`. -/
def aggregateHandler (plateResults : List (Option PlateDetection)) : PlateDetection :=
  (jsOrOpt
    (jsOrOpt
      (jsOrOpt ((plateResults.find? goodResult).getD none)
        ((plateResults.find? hasPlateResult).getD none))
      (plateResults[1]?.getD none))
    (plateResults[0]?.getD none)).getD noPlateDetection

/-- Modelled from the spec: the observation-level selection policy in the
claim's own words, for the handler's three-element result list
`[vehicle-crop, full image, bottom half]` — first result with a
validated plate of confidence above `0.1`; else first result with any
validated plate; else the designated default, the full-image result. -/
def selectPerSpec (r0 : Option PlateDetection) (r1 r2 : PlateDetection) : PlateDetection :=
  match [r0, some r1, some r2].find? goodResult with
  | some (some d) => d
  | _ =>
    match [r0, some r1, some r2].find? hasPlateResult with
    | some (some d) => d
    | _ => r1

/-- Base score determined by the claimed rule order (the spec lists the
`LL-?DDD-?LL` check before the `LLL-?DDDD` check; the source tests them
in the opposite order). -/
def specBase (m : List Char) : Int :=
  if anchoredTest scoreRe100 m then 100
  else if anchoredTest scoreRe90 m then 90
  else if anchoredTest scoreRe85a m then 85
  else if anchoredTest scoreRe85b m then 85
  else if anchoredTest scoreRe80 m then 80
  else if anchoredTest scoreRe60 m then 60
  else 50

/-- Final score as described by the claimed scoring rule. -/
def specScore (m : List Char) : Int :=
  specBase m + (if m.contains '-' then 10 else 0)
  - (if hasDigitTriple m then 20 else 0)
  - (if hasLetterTriple m then 15 else 0)

/-! ### Engine lemmas -/

theorem mem_reMatches_seq {r₁ r₂ : RE} {s m rest : List Char} :
    (m, rest) ∈ reMatches (.seq r₁ r₂) s ↔
      ∃ m₁ s₁ m₂, (m₁, s₁) ∈ reMatches r₁ s ∧ (m₂, rest) ∈ reMatches r₂ s₁ ∧
        m = m₁ ++ m₂ := by
  simp only [reMatches, List.mem_flatMap, List.mem_map]
  constructor
  · rintro ⟨⟨m₁, s₁⟩, h₁, ⟨m₂, s₂⟩, h₂, heq⟩
    cases heq
    exact ⟨m₁, s₁, m₂, h₁, h₂, rfl⟩
  · rintro ⟨m₁, s₁, m₂, h₁, h₂, rfl⟩
    exact ⟨⟨m₁, s₁⟩, h₁, ⟨m₂, rest⟩, h₂, rfl⟩

theorem mem_reMatches_cls {p : Char → Bool} {s m rest : List Char} :
    (m, rest) ∈ reMatches (.cls p) s ↔
      ∃ c, s = c :: rest ∧ p c = true ∧ m = [c] := by
  cases s with
  | nil =>
    simp only [reMatches, List.not_mem_nil, false_iff]
    rintro ⟨c, heq, -, -⟩
    exact List.noConfusion heq
  | cons c cs =>
    by_cases hp : p c = true
    · rw [reMatches, if_pos hp]
      simp only [List.mem_singleton, Prod.mk.injEq]
      constructor
      · rintro ⟨rfl, rfl⟩
        exact ⟨c, rfl, hp, rfl⟩
      · rintro ⟨c', heq, hp', rfl⟩
        injection heq with h1 h2
        subst h1; subst h2
        exact ⟨rfl, rfl⟩
    · rw [reMatches, if_neg hp]
      simp only [List.not_mem_nil, false_iff]
      rintro ⟨c', heq, hp', rfl⟩
      injection heq with h1 h2
      subst h1
      exact hp hp'

theorem mem_reMatches_opt {r : RE} {s m rest : List Char} :
    (m, rest) ∈ reMatches (.opt r) s ↔
      (m, rest) ∈ reMatches r s ∨ (m = [] ∧ rest = s) := by
  simp [reMatches, Prod.mk.injEq]

theorem mem_reMatches_eps {s m rest : List Char} :
    (m, rest) ∈ reMatches .eps s ↔ m = [] ∧ rest = s := by
  simp [reMatches, Prod.mk.injEq]

theorem reMatches_append {r : RE} :
    ∀ {s m rest : List Char}, (m, rest) ∈ reMatches r s → s = m ++ rest := by
  induction r with
  | eps =>
    intro s m rest h
    obtain ⟨rfl, rfl⟩ := mem_reMatches_eps.mp h
    rfl
  | cls p =>
    intro s m rest h
    obtain ⟨c, rfl, -, rfl⟩ := mem_reMatches_cls.mp h
    rfl
  | opt r ih =>
    intro s m rest h
    rcases mem_reMatches_opt.mp h with h' | ⟨rfl, rfl⟩
    · exact ih h'
    · rfl
  | seq r₁ r₂ ih₁ ih₂ =>
    intro s m rest h
    obtain ⟨m₁, s₁, m₂, h₁, h₂, rfl⟩ := mem_reMatches_seq.mp h
    rw [ih₁ h₁, ih₂ h₂, List.append_assoc]

theorem reN_cls_shape {p : Char → Bool} :
    ∀ {n : Nat} {s m rest : List Char}, (m, rest) ∈ reMatches (reN (.cls p) n) s →
      m.length = n ∧ ∀ c ∈ m, p c = true := by
  intro n
  induction n with
  | zero =>
    intro s m rest h
    obtain ⟨rfl, rfl⟩ := mem_reMatches_eps.mp h
    simp
  | succ k ih =>
    intro s m rest h
    obtain ⟨m₁, s₁, m₂, h₁, h₂, rfl⟩ := mem_reMatches_seq.mp h
    obtain ⟨c, rfl, hp, rfl⟩ := mem_reMatches_cls.mp h₁
    obtain ⟨hlen, hall⟩ := ih h₂
    refine ⟨by simp [hlen], ?_⟩
    intro d hd
    rcases List.mem_cons.mp hd with rfl | hd'
    · exact hp
    · exact hall d hd'

theorem reDashOpt_shape {s m rest : List Char}
    (h : (m, rest) ∈ reMatches reDashOpt s) : m = ['-'] ∨ m = [] := by
  rcases mem_reMatches_opt.mp h with h' | ⟨rfl, -⟩
  · obtain ⟨c, -, hp, rfl⟩ := mem_reMatches_cls.mp h'
    have : c = '-' := by simpa using hp
    rw [this]
    exact Or.inl rfl
  · exact Or.inr rfl

theorem anchoredTest_iff {r : RE} {m : List Char} :
    anchoredTest r m = true ↔ (m, ([] : List Char)) ∈ reMatches r m := by
  unfold anchoredTest
  rw [List.any_eq_true]
  constructor
  · rintro ⟨⟨m', rest⟩, hmem, hres⟩
    simp only [List.isEmpty_iff] at hres
    subst hres
    have := reMatches_append hmem
    simp only [List.append_nil] at this
    subst this
    exact hmem
  · intro h
    exact ⟨(m, []), h, by simp⟩

theorem jsMatchGo_succ (r : RE) (fuel : Nat) (s : List Char) :
    jsMatchGo r (fuel + 1) s =
      match reMatches r s with
      | [] =>
        match s with
        | [] => []
        | _ :: tail => jsMatchGo r fuel tail
      | (m, rest) :: _ =>
        match m with
        | [] =>
          match s with
          | [] => [[]]
          | _ :: tail => [] :: jsMatchGo r fuel tail
        | _ => m :: jsMatchGo r fuel rest := rfl

theorem jsMatchGo_substring {r : RE} :
    ∀ {fuel : Nat} {s m : List Char}, m ∈ jsMatchGo r fuel s → m <:+: s := by
  intro fuel
  induction fuel with
  | zero => intro s m h; simp [jsMatchGo] at h
  | succ k ih =>
    intro s m h
    rw [jsMatchGo_succ] at h
    rcases hre : reMatches r s with _ | ⟨⟨m₀, rest⟩, tl⟩
    · rw [hre] at h
      simp only at h
      cases s with
      | nil => simp at h
      | cons c tail => exact (ih h).trans (List.suffix_cons c tail).isInfix
    · rw [hre] at h
      simp only at h
      have hsplit : s = m₀ ++ rest :=
        reMatches_append (hre ▸ List.mem_cons_self (m₀, rest) tl)
      cases m₀ with
      | nil =>
        cases s with
        | nil =>
          simp only [List.mem_singleton] at h
          subst h
          exact List.nil_infix
        | cons c tail =>
          rcases List.mem_cons.mp h with rfl | h'
          · exact List.nil_infix
          · exact (ih h').trans (List.suffix_cons c tail).isInfix
      | cons c₀ cs₀ =>
        rcases List.mem_cons.mp h with rfl | h'
        · exact ⟨[], rest, by simpa using hsplit.symm⟩
        · refine (ih h').trans ?_
          exact (hsplit ▸ List.suffix_append (c₀ :: cs₀) rest).isInfix

theorem jsMatchAll_substring {r : RE} {s m : List Char}
    (h : m ∈ jsMatchAll r s) : m <:+: s :=
  jsMatchGo_substring h

/-! ### Sorting lemmas -/

theorem insertBy_perm (le : α → α → Bool) (a : α) :
    ∀ l : List α, (insertBy le a l).Perm (a :: l) := by
  intro l
  induction l with
  | nil => exact List.Perm.refl _
  | cons b l ih =>
    rw [insertBy]
    by_cases hle : le a b = true
    · rw [if_pos hle]
    · rw [if_neg hle]
      exact (ih.cons b).trans (List.Perm.swap a b l)

theorem jsSortBy_perm (le : α → α → Bool) :
    ∀ l : List α, (jsSortBy le l).Perm l := by
  intro l
  induction l with
  | nil => exact List.Perm.refl _
  | cons x xs ih =>
    rw [jsSortBy]
    exact (insertBy_perm le x (jsSortBy le xs)).trans (ih.cons x)

/-! ### Cleaning lemmas -/

theorem stripCIGo_subset (pat : List Char) :
    ∀ (fuel : Nat) (s : List Char), ∀ c ∈ stripCIGo pat fuel s, c ∈ s := by
  intro fuel
  induction fuel with
  | zero =>
    intro s c hc
    cases s with
    | nil => simp [stripCIGo] at hc
    | cons a rest => simpa [stripCIGo] using hc
  | succ k ih =>
    intro s c hc
    cases s with
    | nil => simp [stripCIGo] at hc
    | cons a rest =>
      rw [stripCIGo] at hc
      by_cases hpre : (isPrefixCI pat (a :: rest) && !pat.isEmpty) = true
      · rw [if_pos hpre] at hc
        exact List.mem_cons_of_mem a (List.mem_of_mem_drop (ih _ c hc))
      · rw [if_neg hpre] at hc
        rcases List.mem_cons.mp hc with rfl | h'
        · exact List.mem_cons_self c rest
        · exact List.mem_cons_of_mem a (ih _ c h')

theorem stripCI_subset (pat : List Char) :
    ∀ (s : List Char) (c : Char), c ∈ stripCI pat s → c ∈ s :=
  fun s c hc => stripCIGo_subset pat s.length s c hc

theorem upper_digit_dash_of_kept {c : Char}
    (hk : keepChar c = true) (hw : jsWhitespace c = false) :
    (isUpperAZ c || isDigit09 c || decide (c = '-')) = true := by
  simp only [keepChar, Bool.or_eq_true] at hk
  rcases hk with ((h | h) | h) | h
  · simp [h]
  · simp [h]
  · simp [h]
  · rw [h] at hw; exact absurd hw (by simp)

theorem toUpperChar_fixed {c : Char}
    (h : (isUpperAZ c || isDigit09 c || decide (c = '-')) = true) :
    toUpperChar c = c := by
  rw [toUpperChar, if_neg]
  rintro ⟨h1, h2⟩
  simp only [isUpperAZ, isDigit09, Bool.or_eq_true, Bool.and_eq_true,
    decide_eq_true_eq] at h
  rcases h with (⟨-, hZ⟩ | ⟨-, h9⟩) | rfl
  · exact absurd (le_trans h1 hZ) (by decide)
  · exact absurd (le_trans h1 h9) (by decide)
  · exact absurd h1 (by decide)

theorem cleanText_chars {text : List Char} {c : Char}
    (h : c ∈ cleanText text) :
    (isUpperAZ c || isDigit09 c || decide (c = '-')) = true := by
  unfold cleanText at h
  obtain ⟨c', hc', rfl⟩ := List.mem_map.mp h
  obtain ⟨hc'', hw⟩ := List.mem_filter.mp hc'
  have h1 := stripCI_subset _ _ _ hc''
  have h2 := stripCI_subset _ _ _ h1
  have h3 := stripCI_subset _ _ _ h2
  obtain ⟨-, hk⟩ := List.mem_filter.mp h3
  have hcls := upper_digit_dash_of_kept hk (by simpa using hw)
  rw [toUpperChar_fixed hcls]
  exact hcls

/-! ### Scoring lemmas -/

theorem scoreMatch_lower_bound (m : List Char) : 15 ≤ scoreMatch m := by
  unfold scoreMatch
  split_ifs <;> norm_num

theorem upper_not_digit {c : Char}
    (h1 : isUpperAZ c = true) (h2 : isDigit09 c = true) : False := by
  simp only [isUpperAZ, isDigit09, Bool.and_eq_true, decide_eq_true_eq] at h1 h2
  exact absurd (le_trans h1.1 h2.2) (by decide)

theorem scoreRe80_shape {m : List Char} (h : anchoredTest scoreRe80 m = true) :
    ∃ a b c rest, m = a :: b :: c :: rest ∧ isUpperAZ c = true := by
  rw [anchoredTest_iff] at h
  have h' : (m, ([] : List Char)) ∈
      reMatches (.seq (reN (.cls isUpperAZ) 3)
        (.seq reDashOpt (.seq (reN (.cls isDigit09) 4) .eps))) m := h
  obtain ⟨m₁, s₁, m₂, h₁, -, rfl⟩ := mem_reMatches_seq.mp h'
  obtain ⟨hlen, hall⟩ := reN_cls_shape h₁
  obtain ⟨a, b, c, rfl⟩ := List.length_eq_three.mp hlen
  exact ⟨a, b, c, m₂, rfl, hall c (by simp)⟩

theorem scoreRe85b_shape {m : List Char} (h : anchoredTest scoreRe85b m = true) :
    ∃ a b x rest, m = a :: b :: x :: rest ∧ (x = '-' ∨ isDigit09 x = true) := by
  rw [anchoredTest_iff] at h
  have h' : (m, ([] : List Char)) ∈
      reMatches (.seq (reN (.cls isUpperAZ) 2)
        (.seq reDashOpt (.seq (reN (.cls isDigit09) 3)
          (.seq reDashOpt (.seq (reN (.cls isUpperAZ) 2) .eps))))) m := h
  obtain ⟨m₁, s₁, m₂, h₁, h₂, rfl⟩ := mem_reMatches_seq.mp h'
  obtain ⟨hlen, -⟩ := reN_cls_shape h₁
  obtain ⟨a, b, rfl⟩ := List.length_eq_two.mp hlen
  obtain ⟨md, s₂, m₃, hd, h₃, rfl⟩ := mem_reMatches_seq.mp h₂
  obtain ⟨mdig, s₃, m₄, hdig, -, rfl⟩ := mem_reMatches_seq.mp h₃
  obtain ⟨hdlen, hdall⟩ := reN_cls_shape hdig
  obtain ⟨d₁, d₂, d₃, rfl⟩ := List.length_eq_three.mp hdlen
  rcases reDashOpt_shape hd with rfl | rfl
  · exact ⟨a, b, '-', [d₁, d₂, d₃] ++ m₄, by simp, Or.inl rfl⟩
  · exact ⟨a, b, d₁, [d₂, d₃] ++ m₄, by simp, Or.inr (hdall d₁ (by simp))⟩

theorem scoreRe80_85b_disjoint {m : List Char}
    (h4 : anchoredTest scoreRe80 m = true)
    (h5 : anchoredTest scoreRe85b m = true) : False := by
  obtain ⟨a, b, c, rest, heq1, hc⟩ := scoreRe80_shape h4
  obtain ⟨a', b', x, rest', heq2, hx⟩ := scoreRe85b_shape h5
  rw [heq1] at heq2
  injection heq2 with e1 heq2
  injection heq2 with e2 heq2
  injection heq2 with e3 heq2
  subst e3
  rcases hx with rfl | hx
  · exact absurd hc (by decide)
  · exact upper_not_digit hc hx

/-! ### Confidence-sort lemmas -/

theorem ocrLe_true_conf {x y : OcrResult}
    (hgap : x = y ∨ (1 : ℚ) / 10 ≤ |x.confidence - y.confidence|)
    (h : ocrLe x y = true) : y.confidence ≤ x.confidence := by
  rcases hgap with rfl | hgap
  · exact le_refl _
  · have hnlt : ¬(|x.confidence - y.confidence| < 1 / 10) := not_lt.mpr hgap
    unfold ocrLe ocrCmp at h
    rw [if_neg hnlt] at h
    simp only [decide_eq_true_eq] at h
    linarith [h]

theorem ocrLe_false_conf {x y : OcrResult}
    (hgap : x = y ∨ (1 : ℚ) / 10 ≤ |x.confidence - y.confidence|)
    (h : ocrLe x y = false) : x.confidence ≤ y.confidence := by
  rcases hgap with rfl | hgap
  · exact le_refl _
  · have hnlt : ¬(|x.confidence - y.confidence| < 1 / 10) := not_lt.mpr hgap
    unfold ocrLe ocrCmp at h
    rw [if_neg hnlt] at h
    simp only [decide_eq_false_iff_not, not_le] at h
    linarith [h]

theorem jsSortBy_head_conf_max :
    ∀ (l : List OcrResult),
      (∀ x ∈ l, ∀ y ∈ l, x ≠ y → (1 : ℚ) / 10 ≤ |x.confidence - y.confidence|) →
      ∀ h t, jsSortBy ocrLe l = h :: t →
        h ∈ l ∧ ∀ y ∈ l, y.confidence ≤ h.confidence := by
  intro l
  induction l with
  | nil => intro _ h t hst; simp [jsSortBy] at hst
  | cons x xs ih =>
    intro hgap h t hst
    have hgap' : ∀ a ∈ xs, ∀ b ∈ xs, a ≠ b →
        (1 : ℚ) / 10 ≤ |a.confidence - b.confidence| :=
      fun a ha b hb => hgap a (List.mem_cons_of_mem x ha) b (List.mem_cons_of_mem x hb)
    rw [jsSortBy] at hst
    rcases hsx : jsSortBy ocrLe xs with _ | ⟨h₀, t₀⟩
    · rw [hsx] at hst
      have hxs : xs = [] := ((hsx ▸ jsSortBy_perm ocrLe xs).symm).eq_nil
      rw [insertBy] at hst
      injection hst with e1 e2
      subst e1
      refine ⟨List.mem_cons_self _ _, ?_⟩
      intro y hy
      rw [hxs] at hy
      rcases List.mem_cons.mp hy with rfl | hy'
      · exact le_refl _
      · simp at hy'
    · rw [hsx] at hst
      have hmem₀ : h₀ ∈ xs := (jsSortBy_perm ocrLe xs).mem_iff.mp
        (by rw [hsx]; exact List.mem_cons_self _ _)
      obtain ⟨-, hmax₀⟩ := ih hgap' h₀ t₀ hsx
      rw [insertBy] at hst
      by_cases hle : ocrLe x h₀ = true
      · rw [if_pos hle] at hst
        injection hst with e1 e2
        subst e1
        have hxh₀ : h₀.confidence ≤ x.confidence := by
          by_cases hxeq : x = h₀
          · rw [hxeq]
          · exact ocrLe_true_conf
              (Or.inr (hgap x (List.mem_cons_self x xs) h₀
                (List.mem_cons_of_mem x hmem₀) hxeq)) hle
        refine ⟨List.mem_cons_self _ _, ?_⟩
        intro y hy
        rcases List.mem_cons.mp hy with rfl | hy'
        · exact le_refl _
        · exact le_trans (hmax₀ y hy') hxh₀
      · rw [if_neg hle] at hst
        injection hst with e1 e2
        subst e1
        have hxh₀ : x.confidence ≤ h₀.confidence := by
          by_cases hxeq : x = h₀
          · rw [hxeq]
          · exact ocrLe_false_conf
              (Or.inr (hgap x (List.mem_cons_self x xs) h₀
                (List.mem_cons_of_mem x hmem₀) hxeq))
              (Bool.not_eq_true _ ▸ hle)
        refine ⟨List.mem_cons_of_mem x hmem₀, ?_⟩
        intro y hy
        rcases List.mem_cons.mp hy with rfl | hy'
        · exact hxh₀
        · exact hmax₀ y hy'

/-! ### Claim theorems -/

/-- C2, counterexample: the claim's own example fails — normalizing
`"ncm-27-04"` yields `"-27-04"`, not `"NCM-27-04"`, because the deletion
step runs before the uppercase step and deletes lowercase letters. -/
theorem claim_C2_cex :
    cleanText "ncm-27-04".data = "-27-04".data ∧
    cleanText "ncm-27-04".data ≠ "NCM-27-04".data := by
  constructor
  · decide
  · decide

/-- C2, amended: the deletion step is case-sensitive — every character of
the canonical output is an uppercase Latin letter, a digit, or a dash
(lowercase letters are deleted, since deletion precedes uppercasing), and
normalizing `"ncm-27-04"` yields `"-27-04"`. -/
theorem claim_C2 (text : List Char) (c : Char) (h : c ∈ cleanText text) :
    (isUpperAZ c || isDigit09 c || decide (c = '-')) = true ∧
    cleanText "ncm-27-04".data = "-27-04".data :=
  ⟨cleanText_chars h, by decide⟩

/-- Witness for `claim_C2` at `text = "ncm-27-04"`, `c = '-'`. -/
theorem claim_C2_witness :
    ('-' ∈ cleanText "ncm-27-04".data) ∧
    ((isUpperAZ '-' || isDigit09 '-' || decide ('-' = '-')) = true ∧
     cleanText "ncm-27-04".data = "-27-04".data) :=
  ⟨by decide, claim_C2 "ncm-27-04".data '-' (by decide)⟩

/-- C3: for every match string, the score computed by the source's
if-chain equals the score described by the claim's rule order (which
lists the `LL-?DDD-?LL` check before the `LLL-?DDDD` check): the two
swapped checks can never both accept the same string, because position
three of an accepted string is an uppercase letter for one check and a
dash or digit for the other. -/
theorem claim_C3 (m : List Char) : scoreMatch m = specScore m := by
  unfold scoreMatch specScore specBase
  cases h4 : anchoredTest scoreRe80 m with
  | true =>
    have h5 : anchoredTest scoreRe85b m = false := by
      cases h5' : anchoredTest scoreRe85b m
      · rfl
      · exact (scoreRe80_85b_disjoint h4 h5').elim
    simp [h4, h5]
  | false => simp [h4]

/-- C4, counterexample: against the server validator, the raw pattern
match `"AB123"` (length 5, produced by the permissive ninth pattern from
input `"AB123!"`) is NOT accepted as a candidate — the server's window is
`[6,10]`, not the claimed `[5,10]`. -/
theorem claim_C4_cex :
    (∃ pat ∈ MEXICAN_PLATE_PATTERNS,
      "AB123".data ∈ jsMatchAll pat (cleanText "AB123!".data) ∧
      ("AB123".data).length = 5) ∧
    candidatesOf (cleanText "AB123!".data) = [] ∧
    validateMexicanPlate "AB123!".data = none := by
  refine ⟨⟨seqs [reRange reL 2 3, reRange reD 2 4, .opt reL], ?_, by decide, by decide⟩,
    by decide, by decide⟩
  repeat first
  | exact List.mem_cons_self _ _
  | apply List.mem_cons_of_mem

/-- C4, amended: a raw pattern match becomes a scored candidate iff its
length lies in the validator's window — `[6,10]` in the server validator,
`[5,10]` in the `ProcessedImages.vue` validator. -/
theorem claim_C4 (clean m : List Char) :
    ((⟨m, scoreMatch m⟩ : Candidate) ∈ candidatesOf clean ↔
      ∃ pat ∈ MEXICAN_PLATE_PATTERNS,
        m ∈ jsMatchAll pat clean ∧ 6 ≤ m.length ∧ m.length ≤ 10) ∧
    ((⟨m, scoreMatchVue m⟩ : Candidate) ∈ candidatesOfVue clean ↔
      ∃ pat ∈ VUE_PLATE_PATTERNS,
        m ∈ jsMatchAll pat clean ∧ 5 ≤ m.length ∧ m.length ≤ 10) := by
  constructor
  · simp only [candidatesOf, List.mem_flatMap, List.mem_map, List.mem_filter,
      Bool.and_eq_true, decide_eq_true_eq, Candidate.mk.injEq]
    constructor
    · rintro ⟨pat, hpat, m', ⟨hm', h5, h10⟩, rfl, -⟩
      exact ⟨pat, hpat, hm', h5, h10⟩
    · rintro ⟨pat, hpat, hm, h5, h10⟩
      exact ⟨pat, hpat, m, ⟨hm, h5, h10⟩, rfl, rfl⟩
  · simp only [candidatesOfVue, List.mem_flatMap, List.mem_map, List.mem_filter,
      Bool.and_eq_true, decide_eq_true_eq, Candidate.mk.injEq]
    constructor
    · rintro ⟨pat, hpat, m', ⟨hm', h5, h10⟩, rfl, -⟩
      exact ⟨pat, hpat, hm', h5, h10⟩
    · rintro ⟨pat, hpat, hm, h5, h10⟩
      exact ⟨pat, hpat, m, ⟨hm, h5, h10⟩, rfl, rfl⟩

/-- C5: the validator's result is non-null iff the ranked candidate list
is non-empty, and it always equals the plate of the first ranked
candidate. -/
theorem claim_C5 (text : List Char) :
    validateMexicanPlate text = ((rankedCandidates text).head?).map Candidate.plate ∧
    ((validateMexicanPlate text).isSome ↔ rankedCandidates text ≠ []) := by
  have hmain : validateMexicanPlate text =
      ((rankedCandidates text).head?).map Candidate.plate := by
    unfold validateMexicanPlate rankedCandidates
    by_cases h : text.length < 6
    · rw [if_pos h, if_pos h]; rfl
    · rw [if_neg h, if_neg h]
      cases hs : jsSortBy scoreLe (candidatesOf (cleanText text)) with
      | nil => rfl
      | cons c cs => rfl
  refine ⟨hmain, ?_⟩
  rw [hmain]
  cases hs : rankedCandidates text with
  | nil => simp
  | cons c cs => simp

/-- C6: the extractor treats null/empty input, too-short input, input
with no accepted pattern match, and an empty observation list uniformly
as "no candidate" — it returns `null` (and, for the observation list, the
no-plate result object with a null plate and empty candidate list) rather
than raising. -/
theorem claim_C6 (t₁ t₂ : List Char) (h₁ : t₁.length < 6)
    (h₂ : candidatesOf (cleanText t₂) = []) :
    validateMexicanPlate t₁ = none ∧ validateMexicanPlate t₂ = none ∧
    detectPlateWithOCR [] = noPlateDetection ∧
    noPlateDetection.plateText = none ∧ noPlateDetection.allCandidates = [] := by
  refine ⟨?_, ?_, rfl, rfl, rfl⟩
  · unfold validateMexicanPlate
    rw [if_pos h₁]
  · unfold validateMexicanPlate
    by_cases h : t₂.length < 6
    · rw [if_pos h]
    · rw [if_neg h, h₂]
      rfl

/-- Witness for `claim_C6` at the empty string (too short) and at
`"!!!!!!"` (long enough but yielding no pattern match). -/
theorem claim_C6_witness :
    ("".data.length < 6 ∧ candidatesOf (cleanText "!!!!!!".data) = []) ∧
    (validateMexicanPlate "".data = none ∧ validateMexicanPlate "!!!!!!".data = none ∧
     detectPlateWithOCR [] = noPlateDetection ∧
     noPlateDetection.plateText = none ∧ noPlateDetection.allCandidates = []) :=
  ⟨⟨by decide, by decide⟩, claim_C6 "".data "!!!!!!".data (by decide) (by decide)⟩

/-- C9, counterexample: no candidate score is ever negative — every base
is at least 50 and the penalties total at most 35, so the minimum
possible score is 15. -/
theorem claim_C9_cex : ¬ ∃ m : List Char, scoreMatch m < 0 := by
  rintro ⟨m, hm⟩
  have := scoreMatch_lower_bound m
  omega

/-- C9, amended: the final score is never negative (it is bounded below
by 15); low scores are retained unclamped and still participate in
ranking — the score-30 candidate `"11AA111"` is the only candidate of its
input and is returned as the best plate. -/
theorem claim_C9 :
    (∀ m : List Char, 15 ≤ scoreMatch m) ∧
    validateMexicanPlate "11AA111".data = some "11AA111".data ∧
    rankedCandidates "11AA111".data = [⟨"11AA111".data, 30⟩] ∧
    scoreMatch "11AA111".data = 30 :=
  ⟨scoreMatch_lower_bound, by decide, by decide, by decide⟩

/-- C10: every non-null validator result is a contiguous substring of the
canonical text, has length in `[6,10]`, consists only of uppercase
letters, digits and dashes, and is a global match of at least one of the
nine grammar patterns. -/
theorem claim_C10 (text p : List Char) (h : validateMexicanPlate text = some p) :
    p <:+: cleanText text ∧ 6 ≤ p.length ∧ p.length ≤ 10 ∧
    (∀ c ∈ p, (isUpperAZ c || isDigit09 c || decide (c = '-')) = true) ∧
    ∃ pat ∈ MEXICAN_PLATE_PATTERNS, p ∈ jsMatchAll pat (cleanText text) := by
  unfold validateMexicanPlate at h
  by_cases hlen : text.length < 6
  · rw [if_pos hlen] at h
    exact absurd h (by simp)
  · rw [if_neg hlen] at h
    cases hs : jsSortBy scoreLe (candidatesOf (cleanText text)) with
    | nil => rw [hs] at h; exact absurd h (by simp)
    | cons c cs =>
      rw [hs] at h
      injection h with hp
      have hc : c ∈ candidatesOf (cleanText text) :=
        (jsSortBy_perm scoreLe _).mem_iff.mp (hs ▸ List.mem_cons_self c cs)
      simp only [candidatesOf, List.mem_flatMap, List.mem_map, List.mem_filter,
        Bool.and_eq_true, decide_eq_true_eq] at hc
      obtain ⟨pat, hpat, m, ⟨hm, h6, h10⟩, hceq⟩ := hc
      have hplate : p = m := by rw [← hp, ← hceq]
      subst hplate
      refine ⟨jsMatchAll_substring hm, h6, h10, ?_, ⟨pat, hpat, hm⟩⟩
      intro ch hch
      exact cleanText_chars ((jsMatchAll_substring hm).subset hch)

/-- Witness for `claim_C10` at input `"ABC-12-34"`. -/
theorem claim_C10_witness :
    validateMexicanPlate "ABC-12-34".data = some ("ABC-12-34".data) ∧
    ("ABC-12-34".data <:+: cleanText "ABC-12-34".data ∧
     6 ≤ ("ABC-12-34".data).length ∧ ("ABC-12-34".data).length ≤ 10 ∧
     (∀ c ∈ "ABC-12-34".data,
       (isUpperAZ c || isDigit09 c || decide (c = '-')) = true) ∧
     ∃ pat ∈ MEXICAN_PLATE_PATTERNS,
       "ABC-12-34".data ∈ jsMatchAll pat (cleanText "ABC-12-34".data)) :=
  ⟨by decide, claim_C10 "ABC-12-34".data "ABC-12-34".data (by decide)⟩

/-! ### Concrete evaluation helpers for the confidence-level aggregation -/

theorem jsSortBy_pair (le : α → α → Bool) (a b : α) :
    jsSortBy le [a, b] = if le a b then [a, b] else [b, a] := by
  by_cases h : le a b = true
  · simp [jsSortBy, insertBy, h]
  · simp [jsSortBy, insertBy, h]

theorem ocrLe_of_conf_gap_ge (a b : OcrResult)
    (h : b.confidence + 1 / 10 ≤ a.confidence) : ocrLe a b = true := by
  have habs : ¬ |a.confidence - b.confidence| < 1 / 10 := by
    rw [not_lt, le_abs]
    left; linarith
  unfold ocrLe ocrCmp
  rw [if_neg habs]
  simp only [decide_eq_true_eq]
  linarith

theorem ocrLe_false_of_conf_gap_le (a b : OcrResult)
    (h : a.confidence + 1 / 10 ≤ b.confidence) : ocrLe a b = false := by
  have habs : ¬ |a.confidence - b.confidence| < 1 / 10 := by
    rw [not_lt, le_abs]
    right; linarith
  unfold ocrLe ocrCmp
  rw [if_neg habs]
  simp only [decide_eq_false_iff_not, not_le]
  linarith

theorem ocrLe_near_focused (a b : OcrResult)
    (h : |a.confidence - b.confidence| < 1 / 10)
    (hsrc : a.source = "enfocada".data) : ocrLe a b = true := by
  unfold ocrLe ocrCmp
  rw [if_pos h, if_pos hsrc]
  simp only [decide_eq_true_eq]
  norm_num

theorem ocrLe_near_unfocused (a b : OcrResult)
    (h : |a.confidence - b.confidence| < 1 / 10)
    (hsrc : a.source ≠ "enfocada".data) : ocrLe a b = false := by
  unfold ocrLe ocrCmp
  rw [if_pos h, if_neg hsrc]
  simp only [decide_eq_false_iff_not, not_le]
  norm_num

theorem detect_two_eval (r₁ r₂ : OcrReading) (p₁ p₂ : List Char)
    (h₁ : validateMexicanPlate r₁.text = some p₁)
    (h₂ : validateMexicanPlate r₂.text = some p₂)
    (hle : ocrLe ⟨p₁, r₁.confidence / 100, r₁.text, r₁.source⟩
                 ⟨p₂, r₂.confidence / 100, r₂.text, r₂.source⟩ = true) :
    (detectPlateWithOCR [r₁, r₂]).plateText = some p₁ := by
  have hcol : collectOcrResults [r₁, r₂] =
      [⟨p₁, r₁.confidence / 100, r₁.text, r₁.source⟩,
       ⟨p₂, r₂.confidence / 100, r₂.text, r₂.source⟩] := by
    simp [collectOcrResults, h₁, h₂]
  unfold detectPlateWithOCR
  rw [hcol, jsSortBy_pair, if_pos hle]

theorem detect_two_eval_snd (r₁ r₂ : OcrReading) (p₁ p₂ : List Char)
    (h₁ : validateMexicanPlate r₁.text = some p₁)
    (h₂ : validateMexicanPlate r₂.text = some p₂)
    (hle : ocrLe ⟨p₁, r₁.confidence / 100, r₁.text, r₁.source⟩
                 ⟨p₂, r₂.confidence / 100, r₂.text, r₂.source⟩ = false) :
    (detectPlateWithOCR [r₁, r₂]).plateText = some p₂ := by
  have hcol : collectOcrResults [r₁, r₂] =
      [⟨p₁, r₁.confidence / 100, r₁.text, r₁.source⟩,
       ⟨p₂, r₂.confidence / 100, r₂.text, r₂.source⟩] := by
    simp [collectOcrResults, h₁, h₂]
  unfold detectPlateWithOCR
  rw [hcol, jsSortBy_pair, hle]
  rfl

/-- C1, counterexample: with observation `"XXX-111-A"` at OCR confidence
95 and observation `"ABC-12-34"` at confidence 30, the aggregation
selects `"XXX-111-A"` even though `"ABC-12-34"` has the higher candidate
score (110 vs 80) — candidates are NOT pooled across observations; the
cross-observation ranking follows OCR confidence. -/
theorem claim_C1_cex :
    (detectPlateWithOCR
      [⟨"XXX-111-A".data, 95, "alto contraste".data⟩,
       ⟨"ABC-12-34".data, 30, "escalada".data⟩]).plateText ≠
        some ("ABC-12-34".data) ∧
    (detectPlateWithOCR
      [⟨"XXX-111-A".data, 95, "alto contraste".data⟩,
       ⟨"ABC-12-34".data, 30, "escalada".data⟩]).plateText =
        some ("XXX-111-A".data) ∧
    scoreMatch "ABC-12-34".data = 110 ∧ scoreMatch "XXX-111-A".data = 80 := by
  have hv1 : validateMexicanPlate "XXX-111-A".data = some ("XXX-111-A".data) := by
    decide
  have hv2 : validateMexicanPlate "ABC-12-34".data = some ("ABC-12-34".data) := by
    decide
  have hdet : (detectPlateWithOCR
      [⟨"XXX-111-A".data, 95, "alto contraste".data⟩,
       ⟨"ABC-12-34".data, 30, "escalada".data⟩]).plateText =
        some ("XXX-111-A".data) :=
    detect_two_eval _ _ _ _ hv1 hv2 (ocrLe_of_conf_gap_ge _ _ (by norm_num))
  refine ⟨?_, hdet, by decide, by decide⟩
  rw [hdet]
  decide

/-- C1, amended: candidates are pooled and ranked by score descending
only within a single observation's text; across observations the
per-observation winners are ranked by OCR confidence, so the observation
with the clearly higher confidence wins in either processing order, even
when its plate has the lower candidate score. -/
theorem claim_C1 :
    rankedCandidates "XXX-111-A".data =
      [⟨"XXX-111-A".data, 80⟩, ⟨"XXX-111-".data, 75⟩] ∧
    rankedCandidates "ABC-12-34".data = [⟨"ABC-12-34".data, 110⟩] ∧
    (detectPlateWithOCR
      [⟨"XXX-111-A".data, 95, "alto contraste".data⟩,
       ⟨"ABC-12-34".data, 30, "escalada".data⟩]).plateText =
        some ("XXX-111-A".data) ∧
    (detectPlateWithOCR
      [⟨"ABC-12-34".data, 30, "escalada".data⟩,
       ⟨"XXX-111-A".data, 95, "alto contraste".data⟩]).plateText =
        some ("XXX-111-A".data) ∧
    (detectPlateWithOCR
      [⟨"XXX-111-A".data, 30, "alto contraste".data⟩,
       ⟨"ABC-12-34".data, 95, "escalada".data⟩]).plateText =
        some ("ABC-12-34".data) ∧
    (detectPlateWithOCR
      [⟨"ABC-12-34".data, 95, "escalada".data⟩,
       ⟨"XXX-111-A".data, 30, "alto contraste".data⟩]).plateText =
        some ("ABC-12-34".data) := by
  have hv1 : validateMexicanPlate "XXX-111-A".data = some ("XXX-111-A".data) := by
    decide
  have hv2 : validateMexicanPlate "ABC-12-34".data = some ("ABC-12-34".data) := by
    decide
  refine ⟨by decide, by decide, ?_, ?_, ?_, ?_⟩
  · exact detect_two_eval _ _ _ _ hv1 hv2 (ocrLe_of_conf_gap_ge _ _ (by norm_num))
  · exact detect_two_eval_snd _ _ _ _ hv2 hv1
      (ocrLe_false_of_conf_gap_le _ _ (by norm_num))
  · exact detect_two_eval_snd _ _ _ _ hv1 hv2
      (ocrLe_false_of_conf_gap_le _ _ (by norm_num))
  · exact detect_two_eval _ _ _ _ hv2 hv1 (ocrLe_of_conf_gap_ge _ _ (by norm_num))

/-- C7: the handler's selection chain equals the claimed policy — first
result with a validated plate of confidence above 0.1, else first result
with any validated plate, else the designated full-image default — and
within one OCR run, a near-tie (confidence difference below 0.1) between
a focused-variant result and a non-focused one is won by the focused
result in either arrival order. -/
theorem claim_C7 (r0 : Option PlateDetection) (r1 r2 : PlateDetection)
    (a b : OcrResult) :
    aggregateHandler [r0, some r1, some r2] = selectPerSpec r0 r1 r2 ∧
    (|a.confidence - b.confidence| < 1 / 10 → a.source = "enfocada".data →
      b.source ≠ "enfocada".data →
      (jsSortBy ocrLe [a, b]).head? = some a ∧
      (jsSortBy ocrLe [b, a]).head? = some a) := by
  constructor
  · cases hf : [r0, some r1, some r2].find? goodResult with
    | some x =>
      cases x with
      | none =>
        have := List.find?_some hf
        simp [goodResult] at this
      | some d => simp [aggregateHandler, selectPerSpec, hf, jsOrOpt]
    | none =>
      cases hg : [r0, some r1, some r2].find? hasPlateResult with
      | some x =>
        cases x with
        | none =>
          have := List.find?_some hg
          simp [hasPlateResult] at this
        | some d => simp [aggregateHandler, selectPerSpec, hf, hg, jsOrOpt]
      | none => simp [aggregateHandler, selectPerSpec, hf, hg, jsOrOpt]
  · intro hnear hfoc hnfoc
    have he1 : ocrLe a b = true := ocrLe_near_focused a b hnear hfoc
    have he2 : ocrLe b a = false :=
      ocrLe_near_unfocused b a (by rw [abs_sub_comm]; exact hnear) hnfoc
    constructor
    · rw [jsSortBy_pair, if_pos he1]
      rfl
    · rw [jsSortBy_pair, he2]
      rfl

/-- Witness for `claim_C7`: the handler part at a concrete no-plate
result triple, and the near-tie part at a focused result of confidence
0.5 against a non-focused result of confidence 0.45. -/
theorem claim_C7_witness :
    (|(⟨"AAA-111".data, 1 / 2, [], "enfocada".data⟩ : OcrResult).confidence -
       (⟨"BBB-222".data, 9 / 20, [], "escalada".data⟩ : OcrResult).confidence| <
        1 / 10) ∧
    aggregateHandler [none, some noPlateDetection, some noPlateDetection] =
      selectPerSpec none noPlateDetection noPlateDetection ∧
    (jsSortBy ocrLe
      [⟨"AAA-111".data, 1 / 2, [], "enfocada".data⟩,
       ⟨"BBB-222".data, 9 / 20, [], "escalada".data⟩]).head? =
      some ⟨"AAA-111".data, 1 / 2, [], "enfocada".data⟩ ∧
    (jsSortBy ocrLe
      [⟨"BBB-222".data, 9 / 20, [], "escalada".data⟩,
       ⟨"AAA-111".data, 1 / 2, [], "enfocada".data⟩]).head? =
      some ⟨"AAA-111".data, 1 / 2, [], "enfocada".data⟩ := by
  have hnear : |(⟨"AAA-111".data, 1 / 2, [], "enfocada".data⟩ : OcrResult).confidence -
      (⟨"BBB-222".data, 9 / 20, [], "escalada".data⟩ : OcrResult).confidence| <
        1 / 10 := by
    show |(1 : ℚ) / 2 - 9 / 20| < 1 / 10
    rw [show (1 : ℚ) / 2 - 9 / 20 = 1 / 20 by norm_num,
      abs_of_pos (by norm_num : (0 : ℚ) < 1 / 20)]
    norm_num
  have h := claim_C7 none noPlateDetection noPlateDetection
    ⟨"AAA-111".data, 1 / 2, [], "enfocada".data⟩
    ⟨"BBB-222".data, 9 / 20, [], "escalada".data⟩
  obtain ⟨hsel, hpair⟩ := h
  obtain ⟨hp1, hp2⟩ := hpair hnear (by decide) (by decide)
  exact ⟨hnear, hsel, hp1, hp2⟩

/-- C8, counterexample: the aggregation is NOT commutative — two results
with confidences 0.5 and 0.45 (a near-tie) from non-focused variants are
a permutation of each other, yet the selected best result differs between
the two arrival orders, because the comparator answers "after" for both
orders of a non-focused near-tie. -/
theorem claim_C8_cex :
    pickBest
      [⟨"ABC-12-34".data, 1 / 2, [], "alto contraste".data⟩,
       ⟨"XYZ-56-78".data, 9 / 20, [], "realce de bordes".data⟩] =
      some ⟨"XYZ-56-78".data, 9 / 20, [], "realce de bordes".data⟩ ∧
    pickBest
      [⟨"XYZ-56-78".data, 9 / 20, [], "realce de bordes".data⟩,
       ⟨"ABC-12-34".data, 1 / 2, [], "alto contraste".data⟩] =
      some ⟨"ABC-12-34".data, 1 / 2, [], "alto contraste".data⟩ ∧
    ([⟨"ABC-12-34".data, 1 / 2, [], "alto contraste".data⟩,
      ⟨"XYZ-56-78".data, 9 / 20, [], "realce de bordes".data⟩] : List OcrResult).Perm
      [⟨"XYZ-56-78".data, 9 / 20, [], "realce de bordes".data⟩,
       ⟨"ABC-12-34".data, 1 / 2, [], "alto contraste".data⟩] ∧
    (pickBest
      [⟨"ABC-12-34".data, 1 / 2, [], "alto contraste".data⟩,
       ⟨"XYZ-56-78".data, 9 / 20, [], "realce de bordes".data⟩]).map
        OcrResult.plateText ≠
    (pickBest
      [⟨"XYZ-56-78".data, 9 / 20, [], "realce de bordes".data⟩,
       ⟨"ABC-12-34".data, 1 / 2, [], "alto contraste".data⟩]).map
        OcrResult.plateText := by
  have hnear : |(⟨"ABC-12-34".data, 1 / 2, [], "alto contraste".data⟩ :
      OcrResult).confidence -
      (⟨"XYZ-56-78".data, 9 / 20, [], "realce de bordes".data⟩ :
        OcrResult).confidence| < 1 / 10 := by
    show |(1 : ℚ) / 2 - 9 / 20| < 1 / 10
    rw [show (1 : ℚ) / 2 - 9 / 20 = 1 / 20 by norm_num,
      abs_of_pos (by norm_num : (0 : ℚ) < 1 / 20)]
    norm_num
  have hab : ocrLe ⟨"ABC-12-34".data, 1 / 2, [], "alto contraste".data⟩
      ⟨"XYZ-56-78".data, 9 / 20, [], "realce de bordes".data⟩ = false :=
    ocrLe_near_unfocused _ _ hnear (by decide)
  have hba : ocrLe ⟨"XYZ-56-78".data, 9 / 20, [], "realce de bordes".data⟩
      ⟨"ABC-12-34".data, 1 / 2, [], "alto contraste".data⟩ = false :=
    ocrLe_near_unfocused _ _ (by rw [abs_sub_comm]; exact hnear) (by decide)
  have h1 : pickBest
      [⟨"ABC-12-34".data, 1 / 2, [], "alto contraste".data⟩,
       ⟨"XYZ-56-78".data, 9 / 20, [], "realce de bordes".data⟩] =
      some ⟨"XYZ-56-78".data, 9 / 20, [], "realce de bordes".data⟩ := by
    unfold pickBest
    rw [jsSortBy_pair, hab]
    rfl
  have h2 : pickBest
      [⟨"XYZ-56-78".data, 9 / 20, [], "realce de bordes".data⟩,
       ⟨"ABC-12-34".data, 1 / 2, [], "alto contraste".data⟩] =
      some ⟨"ABC-12-34".data, 1 / 2, [], "alto contraste".data⟩ := by
    unfold pickBest
    rw [jsSortBy_pair, hba]
    rfl
  refine ⟨h1, h2, List.Perm.swap _ _ _, ?_⟩
  rw [h1, h2]
  simp only [Option.map_some']
  intro hcontra
  injection hcontra with hplate
  exact absurd hplate (by decide)

/-- C8, amended: the aggregation IS commutative on result multisets with
no near-ties — whenever every two distinct results differ in confidence
by at least 0.1, every permutation of the result list selects the same
best result (the unique maximum-confidence one). -/
theorem claim_C8 (l₁ l₂ : List OcrResult) (hperm : l₁.Perm l₂)
    (hgap : ∀ x ∈ l₁, ∀ y ∈ l₁, x ≠ y →
      (1 : ℚ) / 10 ≤ |x.confidence - y.confidence|) :
    pickBest l₁ = pickBest l₂ := by
  have hgap₂ : ∀ x ∈ l₂, ∀ y ∈ l₂, x ≠ y →
      (1 : ℚ) / 10 ≤ |x.confidence - y.confidence| :=
    fun x hx y hy => hgap x (hperm.mem_iff.mpr hx) y (hperm.mem_iff.mpr hy)
  unfold pickBest
  rcases h₁ : jsSortBy ocrLe l₁ with _ | ⟨a, ta⟩ <;>
    rcases h₂ : jsSortBy ocrLe l₂ with _ | ⟨b, tb⟩
  · rfl
  · exfalso
    have hl₁ : l₁ = [] := ((h₁ ▸ jsSortBy_perm ocrLe l₁).symm).eq_nil
    have hl₂ : l₂ = [] := ((hl₁ ▸ hperm : ([] : List OcrResult).Perm l₂)).symm.eq_nil
    rw [hl₂] at h₂
    simp [jsSortBy] at h₂
  · exfalso
    have hl₂ : l₂ = [] := ((h₂ ▸ jsSortBy_perm ocrLe l₂).symm).eq_nil
    have hl₁ : l₁ = [] := ((hl₂ ▸ hperm : l₁.Perm ([] : List OcrResult))).eq_nil
    rw [hl₁] at h₁
    simp [jsSortBy] at h₁
  · obtain ⟨ha_mem, ha_max⟩ := jsSortBy_head_conf_max l₁ hgap a ta h₁
    obtain ⟨hb_mem, hb_max⟩ := jsSortBy_head_conf_max l₂ hgap₂ b tb h₂
    have hab : a.confidence ≤ b.confidence :=
      hb_max a (hperm.mem_iff.mp ha_mem)
    have hba : b.confidence ≤ a.confidence :=
      ha_max b (hperm.mem_iff.mpr hb_mem)
    have hconf : a.confidence = b.confidence := le_antisymm hab hba
    by_cases heq : a = b
    · rw [heq]
      rfl
    · exfalso
      have := hgap a ha_mem b (hperm.mem_iff.mpr hb_mem) heq
      rw [hconf] at this
      simp at this
      linarith [this]

/-- Witness for `claim_C8`: a two-element permutation with confidences
0.5 and 0.3 (gap 0.2, at least 0.1) selects the same best result in both
orders. -/
theorem claim_C8_witness :
    (([⟨"ABC-12-34".data, 1 / 2, [], "alto contraste".data⟩,
       ⟨"XYZ-56-78".data, 3 / 10, [], "realce de bordes".data⟩] :
        List OcrResult).Perm
      [⟨"XYZ-56-78".data, 3 / 10, [], "realce de bordes".data⟩,
       ⟨"ABC-12-34".data, 1 / 2, [], "alto contraste".data⟩] ∧
     (∀ x ∈ ([⟨"ABC-12-34".data, 1 / 2, [], "alto contraste".data⟩,
        ⟨"XYZ-56-78".data, 3 / 10, [], "realce de bordes".data⟩] :
          List OcrResult),
       ∀ y ∈ ([⟨"ABC-12-34".data, 1 / 2, [], "alto contraste".data⟩,
        ⟨"XYZ-56-78".data, 3 / 10, [], "realce de bordes".data⟩] :
          List OcrResult),
       x ≠ y → (1 : ℚ) / 10 ≤ |x.confidence - y.confidence|)) ∧
    pickBest
      [⟨"ABC-12-34".data, 1 / 2, [], "alto contraste".data⟩,
       ⟨"XYZ-56-78".data, 3 / 10, [], "realce de bordes".data⟩] =
    pickBest
      [⟨"XYZ-56-78".data, 3 / 10, [], "realce de bordes".data⟩,
       ⟨"ABC-12-34".data, 1 / 2, [], "alto contraste".data⟩] := by
  have hd : (1 : ℚ) / 10 ≤ |(1 : ℚ) / 2 - 3 / 10| := by
    rw [show (1 : ℚ) / 2 - 3 / 10 = 1 / 5 by norm_num,
      abs_of_pos (by norm_num : (0 : ℚ) < 1 / 5)]
    norm_num
  have hgap : ∀ x ∈ ([⟨"ABC-12-34".data, 1 / 2, [], "alto contraste".data⟩,
      ⟨"XYZ-56-78".data, 3 / 10, [], "realce de bordes".data⟩] :
        List OcrResult),
      ∀ y ∈ ([⟨"ABC-12-34".data, 1 / 2, [], "alto contraste".data⟩,
      ⟨"XYZ-56-78".data, 3 / 10, [], "realce de bordes".data⟩] :
        List OcrResult),
      x ≠ y → (1 : ℚ) / 10 ≤ |x.confidence - y.confidence| := by
    intro x hx y hy hne
    simp only [List.mem_cons, List.not_mem_nil, or_false] at hx hy
    rcases hx with rfl | rfl <;> rcases hy with rfl | rfl
    · exact absurd rfl hne
    · exact hd
    · rw [abs_sub_comm]
      exact hd
    · exact absurd rfl hne
  have hperm : ([⟨"ABC-12-34".data, 1 / 2, [], "alto contraste".data⟩,
      ⟨"XYZ-56-78".data, 3 / 10, [], "realce de bordes".data⟩] :
        List OcrResult).Perm
      [⟨"XYZ-56-78".data, 3 / 10, [], "realce de bordes".data⟩,
       ⟨"ABC-12-34".data, 1 / 2, [], "alto contraste".data⟩] :=
    List.Perm.swap _ _ _
  exact ⟨⟨hperm, hgap⟩, claim_C8 _ _ hperm hgap⟩
